import Mathlib

/-!
Verification of the live-reload dev server in `src/core/http-devserver.ts`
(quarto-cli): client registry, broadcast engine (reload frames and log
frames), websocket connect/handle, and the client-script injector.

The TypeScript is shallowly embedded: the mutable `clients` array becomes an
explicit `List Client` threaded through each operation, the reverse `for`
loops become recursion on the number of indices left to visit, and the
fallible external socket operations (`socket.send`, `socket.close`,
`Deno.upgradeWebSocket`) are modelled by outcome flags carried on the socket
or request, so one embedded run covers one concrete assignment of transport
failures.
-/

namespace Quarto

/-- State of one websocket as the embedding sees it: the WHATWG
`readyState` (0 = CONNECTING, 1 = OPEN, 2 = CLOSING, 3 = CLOSED) plus the
outcome the external transport would give to a `send` or `close` call on this
socket (`true` = the call throws). -/
structure WebSocket where
  readyState : Nat
  sendFails : Bool
  closeFails : Bool
deriving DecidableEq, Repr

/-- Per the WHATWG WebSocket IDL, `CONNECTING` is a constant (value 0) exposed
on every instance and on the interface object, independent of the socket's
state; `socket.CONNECTING` in JS reads this constant, never the state. -/
def WebSocket.CONNECTING (_s : WebSocket) : Nat := 0

/-- WHATWG constant `OPEN` (value 1); an instance property independent of the
socket's state. -/
def WebSocket.OPEN (_s : WebSocket) : Nat := 1

/-- WHATWG constant `CLOSING` (value 2); an instance property independent of
the socket's state. `socket.CLOSING` in JS evaluates to 2, never to the
current state. -/
def WebSocket.CLOSING (_s : WebSocket) : Nat := 2

/-- WHATWG constant `CLOSED` (value 3); an instance property independent of
the socket's state. `socket.CLOSED` in JS evaluates to 3, never to the
current state. -/
def WebSocket.CLOSED (_s : WebSocket) : Nat := 3

/-- JS logical negation applied to a number: `!n` is `true` exactly when the
number is zero (NaN does not arise here). -/
def jsNot (n : Nat) : Bool := n == 0

/-- One tracked client (http-devserver.ts lines 34-38): the originating
request url and its websocket. -/
structure Client where
  path : String
  socket : WebSocket
deriving DecidableEq, Repr

/-- Observable outcome of one `reloadClients` call: the final registry, the
send attempts in visit order (client paired with the frame string passed to
`socket.send`), the clients on which `socket.close()` was invoked, and the
clients whose send or close threw (each such error is passed to
`maybeDisplaySocketError`, the diagnostic side channel). -/
structure ReloadResult where
  clients : List Client
  sendAttempts : List (Client × String)
  closeAttempts : List Client
  sendErrors : List Client
  closeErrors : List Client
deriving DecidableEq, Repr

/-- The body of `reloadClients` (http-devserver.ts lines 84-101), with `i`
counting the indices still to visit: the JS loop variable is `i - 1`, so the
call at `i + 1` processes index `i` exactly as
`for (let i = clients.length - 1; i >= 0; i--)` does. Per iteration: read
`clients[i].socket`, try `socket.send("reload" + reloadTarget)` (catch:
`maybeDisplaySocketError`), then in the `finally` block close the socket when
`!socket.CLOSED && !socket.CLOSING` holds (catching a close error the same
way) and `clients.splice(i, 1)`. Note the guard reads the WHATWG instance
constants `CLOSED` (3) and `CLOSING` (2), not `readyState`. The `none` branch
is unreachable for `i ≤ cs.length`: a splice at the current index only shifts
higher indices, so every lower index stays populated. -/
def reloadLoop (reloadTarget : String) : Nat → List Client → ReloadResult
  | 0, cs => ⟨cs, [], [], [], []⟩
  | i + 1, cs =>
    match cs[i]? with
    | none => ⟨cs, [], [], [], []⟩
    | some client =>
      let socket := client.socket
      let message := "reload"
      let frame := message ++ reloadTarget
      let closeGuard := jsNot (socket.CLOSED) && jsNot (socket.CLOSING)
      let rest := reloadLoop reloadTarget i (cs.eraseIdx i)
      { clients := rest.clients
        sendAttempts := (client, frame) :: rest.sendAttempts
        closeAttempts := (if closeGuard then [client] else []) ++ rest.closeAttempts
        sendErrors := (if socket.sendFails then [client] else []) ++ rest.sendErrors
        closeErrors :=
          (if closeGuard && socket.closeFails then [client] else []) ++ rest.closeErrors }

/-- `reloadClients` (http-devserver.ts lines 83-102). The JS default
parameter `reloadTarget = ""` applies exactly when the argument is
undefined, modelled by `Option.getD`. -/
def reloadClients (cs : List Client) (reloadTarget : Option String) : ReloadResult :=
  reloadLoop (reloadTarget.getD "") cs.length cs

/-- Modelled from the spec: the structured log record delivered by the
external log-event stream (`LogEventsHandler` in `src/core/log.ts`, not under
src/); only its serialized field content matters to this component, so the
record is its serialized fields. -/
structure LogRecord where
  json : String
deriving DecidableEq, Repr

/-- Modelled from the spec: "LogFrame — a serializable envelope: the original
structured log record's fields plus one additional field, the fully formatted
human-readable message string." `JSON.stringify` over the spread record plus
`msgFormatted` is external runtime serialization; the serialized object text
is modelled as the record's fields followed by the formatted message. -/
def stringifyLogPayload (logRecord : LogRecord) (msg : String) : String :=
  logRecord.json ++ msg

/-- Observable outcome of one run of the `onLog` handler: the registry after
the pass, the send attempts in visit order with the frame text, and the
clients whose send threw (the handler swallows these errors: `catch (_e)`). -/
structure LogBroadcastResult where
  clients : List Client
  sendAttempts : List (Client × String)
  errorsIgnored : List Client
deriving DecidableEq, Repr

/-- The body of the `LogEventsHandler.onLog` handler (http-devserver.ts
lines 41-55), with `i` counting the indices still to visit as in
`reloadLoop`. Per iteration: read `clients[i].socket`, try
`socket.send("log:" + JSON.stringify({...logRecord, msgFormatted: msg}))`,
and ignore any error; the registry is never mutated. The `none` branch is
unreachable for `i ≤ cs.length`. -/
def onLogLoop (logRecord : LogRecord) (msg : String) : Nat → List Client → LogBroadcastResult
  | 0, cs => ⟨cs, [], []⟩
  | i + 1, cs =>
    match cs[i]? with
    | none => ⟨cs, [], []⟩
    | some client =>
      let socket := client.socket
      let frame := "log:" ++ stringifyLogPayload logRecord msg
      let rest := onLogLoop logRecord msg i cs
      { clients := rest.clients
        sendAttempts := (client, frame) :: rest.sendAttempts
        errorsIgnored := (if socket.sendFails then [client] else []) ++ rest.errorsIgnored }

/-- One invocation of the installed `onLog` handler over the current
registry (http-devserver.ts lines 41-55). -/
def onLogBroadcast (cs : List Client) (logRecord : LogRecord) (msg : String) :
    LogBroadcastResult :=
  onLogLoop logRecord msg cs.length cs

/-- The protocol response produced by a successful upgrade; opaque to this
component, which only hands it back to the transport layer. -/
structure Response where
  body : String
deriving DecidableEq, Repr

/-- An inbound request as this component observes it: its url, the value of
its `upgrade` header, and the outcome `Deno.upgradeWebSocket` (the external
transport's upgrade operation) would have on it — either a socket/response
pair or a thrown error. -/
structure Request where
  url : String
  upgradeHeader : Option String
  upgradeResult : Except String (WebSocket × Response)

/-- Modelled from the spec: `maybeDisplaySocketError` (`src/core/http.ts`,
not under src/) reports an error "via a diagnostic/log side channel"; it is
modelled as appending the error to the list of displayed diagnostics. -/
def maybeDisplaySocketError (e : String) (displayed : List String) : List String :=
  displayed ++ [e]

/-- `handle` (http-devserver.ts lines 58-60):
`req.headers.get("upgrade") === "websocket"`. -/
def handle (req : Request) : Bool :=
  req.upgradeHeader == some "websocket"

/-- Observable outcome of one `connect` call: the registry afterwards, the
resolved value (`some response` or `none` for undefined), and the
diagnostics displayed via `maybeDisplaySocketError`. -/
structure ConnectResult where
  clients : List Client
  response : Option Response
  displayedErrors : List String

/-- `connect` (http-devserver.ts lines 61-70): try
`Deno.upgradeWebSocket(req)`; on success `clients.push({path: req.url,
socket})` and resolve with the response; on a thrown error report it via
`maybeDisplaySocketError` and resolve with undefined — the error is not
rethrown (the embedding is a total function). -/
def connect (cs : List Client) (req : Request) : ConnectResult :=
  match req.upgradeResult with
  | Except.ok (socket, response) =>
    { clients := cs ++ [{ path := req.url, socket := socket }]
      response := some response
      displayedErrors := [] }
  | Except.error e =>
    { clients := cs
      response := none
      displayedErrors := maybeDisplaySocketError e [] }

/-- Modelled from the spec: `kLocalhost` (`src/core/port.ts`, not under
src/), "the server's ... loopback host". -/
def kLocalhost : String := "127.0.0.1"

/-- Modelled from the spec: `renderEjs` (`src/core/ejs.ts`) composed with
`resourcePath` (`src/core/resources.ts`), neither under src/ — "an external
templating/rendering primitive producing HTML fragments from a template path
plus a flat key/value parameter set, and an external resource-path resolver
mapping a logical template name to a filesystem location". The rendered
fragment is modelled symbolically as the template path followed by its
parameters. -/
def renderEjs (templatePath : String) (args : List (String × String)) : String :=
  args.foldl (fun acc kv => acc ++ ";" ++ kv.1 ++ "=" ++ kv.2) templatePath

/-- Modelled from the spec: the pandoc side of a format context, as far as
`isRevealjsOutput` (`src/config/format.ts`, not under src/) inspects it —
whether "the format context identifies slideshow output" (reveal.js). -/
structure FormatPandoc where
  revealjsOutput : Bool
deriving DecidableEq, Repr

/-- Modelled from the spec: `isRevealjsOutput` (`src/config/format.ts`, not
under src/) — the judgment "the format context identifies slideshow
output". -/
def isRevealjsOutput (p : FormatPandoc) : Bool := p.revealjsOutput

/-- A format context (`src/config/types.ts` `Format`), restricted to the
field this component reads. -/
structure Format where
  pandoc : FormatPandoc
deriving DecidableEq, Repr

/-- JS truthiness of an optional boolean parameter: undefined and `false`
are falsy, `true` is truthy. -/
def jsTruthyBool : Option Bool → Bool
  | some b => b
  | none => false

/-- JS truthiness of an optional object parameter: undefined is falsy, any
object is truthy. -/
def jsTruthyObj {α : Type} : Option α → Bool
  | some _ => true
  | none => false

/-- JS `inputFile || ""`: undefined (and the empty string itself) yield the
empty string. -/
def jsOrEmpty : Option String → String
  | some s => s
  | none => ""

/-- `isRevealjsOutput(format.pandoc)` lifted to the optional `format`
argument; `false` on undefined keeps the translation total (the JS `&&`
short-circuits before evaluating it when `format` is undefined, and the
branch body only evaluates it with `format` known truthy). -/
def formatIsRevealjs : Option Format → Bool
  | some f => isRevealjsOutput f.pandoc
  | none => false

/-- The two-variant-plus-core fragment vocabulary of the generated client
script, each constructor carrying the parameters its template is rendered
with. -/
inductive Fragment where
  | core (localhost : String) (port : Nat)
  | revealjs
  | viewer (inputFile : String)
deriving DecidableEq, Repr

/-- The rendered text of one fragment: `renderEjs(resourcePath(...), args)`
exactly as each `devserver.push`/initializer call sites it
(http-devserver.ts lines 113-133). -/
def fragmentText : Fragment → String
  | Fragment.core localhost port =>
    renderEjs "editor/devserver/devserver-core.html"
      [("localhost", localhost), ("port", toString port)]
  | Fragment.revealjs => renderEjs "editor/devserver/devserver-revealjs.html" []
  | Fragment.viewer inputFile =>
    renderEjs "editor/devserver/devserver-viewer.html" [("inputFile", inputFile)]

/-- The fragment list built by `devServerClientScript` (http-devserver.ts
lines 112-133): start from the core fragment; if
`isPresentation && format && isRevealjsOutput(format.pandoc)` (JS truthiness
made explicit) then — after the source's redundant re-check of
`isRevealjsOutput(format.pandoc)` — push the revealjs fragment, else push
the viewer fragment parameterized by `inputFile || ""`. -/
def devServerFragments (port : Nat) (inputFile : Option String)
    (format : Option Format) (isPresentation : Option Bool) : List Fragment :=
  let devserver := [Fragment.core kLocalhost port]
  if jsTruthyBool isPresentation && jsTruthyObj format && formatIsRevealjs format then
    if formatIsRevealjs format then devserver ++ [Fragment.revealjs]
    else devserver
  else
    devserver ++ [Fragment.viewer (jsOrEmpty inputFile)]

/-- JS `Array.prototype.join(sep)`: elements joined with the separator, the
empty string for an empty array. -/
def joinWith (sep : String) : List String → String
  | [] => ""
  | x :: xs => xs.foldl (fun acc y => acc ++ sep ++ y) x

/-- `devServerClientScript` (http-devserver.ts lines 106-136):
`devserver.join("\n")` over the rendered fragments. -/
def devServerClientScript (port : Nat) (inputFile : Option String)
    (format : Option Format) (isPresentation : Option Bool) : String :=
  joinWith "\n" ((devServerFragments port inputFile format isPresentation).map fragmentText)

/-- UTF-8 encoding of one code point, as `TextEncoder.encode` produces it
(and as `String.utf8EncodeChar` specifies it). -/
def utf8Bytes (c : Char) : List Nat :=
  let v := c.toNat
  if v < 0x80 then [v]
  else if v < 0x800 then [0xC0 ||| (v >>> 6), 0x80 ||| (v &&& 0x3F)]
  else if v < 0x10000 then
    [0xE0 ||| (v >>> 12), 0x80 ||| ((v >>> 6) &&& 0x3F), 0x80 ||| (v &&& 0x3F)]
  else
    [0xF0 ||| (v >>> 18), 0x80 ||| ((v >>> 12) &&& 0x3F),
     0x80 ||| ((v >>> 6) &&& 0x3F), 0x80 ||| (v &&& 0x3F)]

/-- `new TextEncoder().encode(s)`: the UTF-8 bytes of the string. -/
def encodeUtf8 (s : String) : List Nat :=
  (s.data.map utf8Bytes).flatten

/-- `injectClient` (http-devserver.ts lines 71-81): encode
`"\n" + devServerClientScript(port, inputFile, format, isPresentation)`,
then build `fileWithScript = new Uint8Array(file.length +
scriptContents.length)` and fill it with `set(file)` followed by
`set(scriptContents, file.length)` — a freshly allocated buffer equal to the
original bytes followed by the encoded script, the input array untouched.
`port` and `isPresentation` are the closure captures of the `httpDevServer`
instance. -/
def injectClient (port : Nat) (isPresentation : Option Bool)
    (file : List Nat) (inputFile : Option String) (format : Option Format) : List Nat :=
  let scriptContents :=
    encodeUtf8 ("\n" ++ devServerClientScript port inputFile format isPresentation)
  file ++ scriptContents

/-- The reverse-index traversal idiom shared by `reloadClients`
(http-devserver.ts lines 84-101, which splices every visited index) and the
`onLog` handler (lines 42-54, which splices none), generalized to an
arbitrary removal decision per index: visit indices from high to low, and
after visiting index `i`, perform `splice(i, 1)` exactly when `removeIdx i`.
Returns the final registry and the visited clients in visit order. Because
only the current index is ever spliced, the not-yet-visited lower indices
keep addressing their original elements, so `removeIdx` ranges over original
indices. -/
def traverseReverse (removeIdx : Nat → Bool) : Nat → List Client → List Client × List Client
  | 0, cs => (cs, [])
  | i + 1, cs =>
    match cs[i]? with
    | none => (cs, [])
    | some client =>
      let rest :=
        if removeIdx i then traverseReverse removeIdx i (cs.eraseIdx i)
        else traverseReverse removeIdx i cs
      (rest.1, client :: rest.2)

/-- One full reverse traversal of the registry with an arbitrary removal
subset, starting from `i = clients.length - 1` as both source loops do. -/
def forEachReverse (cs : List Client) (removeIdx : Nat → Bool) :
    List Client × List Client :=
  traverseReverse removeIdx cs.length cs

/-! Supporting lemmas: splicing the current index of a reverse traversal
never disturbs the not-yet-visited lower indices. -/

lemma take_eraseIdx_of_le {α : Type} (l : List α) (i : Nat) (h : i ≤ l.length) :
    (l.eraseIdx i).take i = l.take i := by
  have hl : (l.take i).length = i := by
    simp only [List.length_take]
    omega
  rw [List.eraseIdx_eq_take_drop_succ, List.take_append_eq_append_take, hl]
  simp [List.take_take]

lemma drop_eraseIdx_of_le {α : Type} (l : List α) (i : Nat) (h : i ≤ l.length) :
    (l.eraseIdx i).drop i = l.drop (i + 1) := by
  have hl : (l.take i).length = i := by
    simp only [List.length_take]
    omega
  rw [List.eraseIdx_eq_take_drop_succ, List.drop_append_eq_append_drop, hl]
  simp [List.drop_take]

lemma take_succ_of_lt {α : Type} (l : List α) (i : Nat) (h : i < l.length) :
    l.take (i + 1) = l.take i ++ [l[i]] := by
  rw [List.take_succ, List.getElem?_eq_getElem h]
  rfl

/-! Behavior of the `reloadClients` loop, one observable at a time, each by
induction on the number of indices left to visit. -/

lemma reloadLoop_clients (t : String) :
    ∀ (i : Nat) (cs : List Client), i ≤ cs.length →
      (reloadLoop t i cs).clients = cs.drop i := by
  intro i
  induction i with
  | zero => intro cs _; simp [reloadLoop]
  | succ i ih =>
    intro cs h
    have hi : i < cs.length := h
    have hsome : cs[i]? = some cs[i] := List.getElem?_eq_getElem hi
    have hlen : i ≤ (cs.eraseIdx i).length := by
      rw [List.length_eraseIdx_of_lt hi]; omega
    have hrec := ih (cs.eraseIdx i) hlen
    simp only [reloadLoop, hsome]
    rw [hrec, drop_eraseIdx_of_le cs i (Nat.le_of_lt hi)]

lemma reloadLoop_sendAttempts (t : String) :
    ∀ (i : Nat) (cs : List Client), i ≤ cs.length →
      (reloadLoop t i cs).sendAttempts
        = (cs.take i).reverse.map (fun c => (c, "reload" ++ t)) := by
  intro i
  induction i with
  | zero => intro cs _; simp [reloadLoop]
  | succ i ih =>
    intro cs h
    have hi : i < cs.length := h
    have hsome : cs[i]? = some cs[i] := List.getElem?_eq_getElem hi
    have hlen : i ≤ (cs.eraseIdx i).length := by
      rw [List.length_eraseIdx_of_lt hi]; omega
    have hrec := ih (cs.eraseIdx i) hlen
    simp only [reloadLoop, hsome]
    rw [hrec, take_eraseIdx_of_le cs i (Nat.le_of_lt hi),
      take_succ_of_lt cs i hi, List.reverse_append]
    simp only [List.reverse_cons, List.reverse_nil, List.nil_append,
      List.singleton_append, List.map_cons]

lemma reloadLoop_closeAttempts (t : String) :
    ∀ (i : Nat) (cs : List Client), (reloadLoop t i cs).closeAttempts = [] := by
  intro i
  induction i with
  | zero => intro cs; simp [reloadLoop]
  | succ i ih =>
    intro cs
    cases hsome : cs[i]? with
    | none => simp [reloadLoop, hsome]
    | some client =>
      simp [reloadLoop, hsome, jsNot, WebSocket.CLOSED, WebSocket.CLOSING, ih]

lemma reloadLoop_closeErrors (t : String) :
    ∀ (i : Nat) (cs : List Client), (reloadLoop t i cs).closeErrors = [] := by
  intro i
  induction i with
  | zero => intro cs; simp [reloadLoop]
  | succ i ih =>
    intro cs
    cases hsome : cs[i]? with
    | none => simp [reloadLoop, hsome]
    | some client =>
      simp [reloadLoop, hsome, jsNot, WebSocket.CLOSED, WebSocket.CLOSING, ih]

lemma reloadLoop_sendErrors (t : String) :
    ∀ (i : Nat) (cs : List Client), i ≤ cs.length →
      (reloadLoop t i cs).sendErrors
        = (cs.take i).reverse.filter (fun c => c.socket.sendFails) := by
  intro i
  induction i with
  | zero => intro cs _; simp [reloadLoop]
  | succ i ih =>
    intro cs h
    have hi : i < cs.length := h
    have hsome : cs[i]? = some cs[i] := List.getElem?_eq_getElem hi
    have hlen : i ≤ (cs.eraseIdx i).length := by
      rw [List.length_eraseIdx_of_lt hi]; omega
    have hrec := ih (cs.eraseIdx i) hlen
    simp only [reloadLoop, hsome]
    rw [hrec, take_eraseIdx_of_le cs i (Nat.le_of_lt hi),
      take_succ_of_lt cs i hi, List.reverse_append]
    simp only [List.reverse_cons, List.reverse_nil, List.nil_append,
      List.singleton_append, List.filter_cons]
    cases hb : cs[i].socket.sendFails <;> simp [hb]

/-! Behavior of the `onLog` handler loop. -/

lemma onLogLoop_clients (r : LogRecord) (m : String) :
    ∀ (i : Nat) (cs : List Client), (onLogLoop r m i cs).clients = cs := by
  intro i
  induction i with
  | zero => intro cs; simp [onLogLoop]
  | succ i ih =>
    intro cs
    cases hsome : cs[i]? with
    | none => simp [onLogLoop, hsome]
    | some client => simp [onLogLoop, hsome, ih]

lemma onLogLoop_sendAttempts (r : LogRecord) (m : String) :
    ∀ (i : Nat) (cs : List Client), i ≤ cs.length →
      (onLogLoop r m i cs).sendAttempts
        = (cs.take i).reverse.map
            (fun c => (c, "log:" ++ stringifyLogPayload r m)) := by
  intro i
  induction i with
  | zero => intro cs _; simp [onLogLoop]
  | succ i ih =>
    intro cs h
    have hi : i < cs.length := h
    have hsome : cs[i]? = some cs[i] := List.getElem?_eq_getElem hi
    have hrec := ih cs (Nat.le_of_lt hi)
    simp only [onLogLoop, hsome]
    rw [hrec, take_succ_of_lt cs i hi, List.reverse_append]
    simp only [List.reverse_cons, List.reverse_nil, List.nil_append,
      List.singleton_append, List.map_cons]

lemma onLogLoop_errorsIgnored (r : LogRecord) (m : String) :
    ∀ (i : Nat) (cs : List Client), i ≤ cs.length →
      (onLogLoop r m i cs).errorsIgnored
        = (cs.take i).reverse.filter (fun c => c.socket.sendFails) := by
  intro i
  induction i with
  | zero => intro cs _; simp [onLogLoop]
  | succ i ih =>
    intro cs h
    have hi : i < cs.length := h
    have hsome : cs[i]? = some cs[i] := List.getElem?_eq_getElem hi
    have hrec := ih cs (Nat.le_of_lt hi)
    simp only [onLogLoop, hsome]
    rw [hrec, take_succ_of_lt cs i hi, List.reverse_append]
    simp only [List.reverse_cons, List.reverse_nil, List.nil_append,
      List.singleton_append, List.filter_cons]
    cases hb : cs[i].socket.sendFails <;> simp [hb]

/-! Behavior of the generalized reverse traversal. -/

lemma traverseReverse_visited (removeIdx : Nat → Bool) :
    ∀ (i : Nat) (cs : List Client), i ≤ cs.length →
      (traverseReverse removeIdx i cs).2 = (cs.take i).reverse := by
  intro i
  induction i with
  | zero => intro cs _; simp [traverseReverse]
  | succ i ih =>
    intro cs h
    have hi : i < cs.length := h
    have hsome : cs[i]? = some cs[i] := List.getElem?_eq_getElem hi
    have hlen : i ≤ (cs.eraseIdx i).length := by
      rw [List.length_eraseIdx_of_lt hi]; omega
    simp only [traverseReverse, hsome]
    rw [take_succ_of_lt cs i hi, List.reverse_append]
    simp only [List.reverse_cons, List.reverse_nil, List.nil_append,
      List.singleton_append]
    cases hr : removeIdx i with
    | true =>
      have hrec := ih (cs.eraseIdx i) hlen
      rw [take_eraseIdx_of_le cs i (Nat.le_of_lt hi)] at hrec
      simp [hrec]
    | false =>
      have hrec := ih cs (Nat.le_of_lt hi)
      simp [hrec]

/-! Remaining helper lemmas. -/

lemma encodeUtf8_newline_cons (s : String) :
    encodeUtf8 ("\n" ++ s) = 10 :: encodeUtf8 s := by
  simp [encodeUtf8, String.data_append, utf8Bytes]

lemma jsTruthyObj_of_formatIsRevealjs {format : Option Format}
    (h : formatIsRevealjs format = true) : jsTruthyObj format = true := by
  cases format <;> simp_all [formatIsRevealjs, jsTruthyObj]

lemma jsTruthyBool_eq_true_iff (o : Option Bool) :
    jsTruthyBool o = true ↔ o = some true := by
  cases o <;> simp [jsTruthyBool]

lemma formatIsRevealjs_eq_true_iff (o : Option Format) :
    formatIsRevealjs o = true
      ↔ ∃ f, o = some f ∧ isRevealjsOutput f.pandoc = true := by
  cases o <;> simp [formatIsRevealjs]

lemma devServerFragments_eq (port : Nat) (inputFile : Option String)
    (format : Option Format) (isPresentation : Option Bool) :
    devServerFragments port inputFile format isPresentation
      = [Fragment.core kLocalhost port,
         if jsTruthyBool isPresentation && formatIsRevealjs format then Fragment.revealjs
         else Fragment.viewer (jsOrEmpty inputFile)] := by
  cases hA : jsTruthyBool isPresentation <;> cases hC : formatIsRevealjs format
  · simp [devServerFragments, hA, hC]
  · simp [devServerFragments, hA, hC]
  · simp [devServerFragments, hA, hC]
  · simp [devServerFragments, hA, hC, jsTruthyObj_of_formatIsRevealjs hC]

/-! The claims. -/

/-- C1: the claim states that `reloadClients` attempts to close the
connection of every registered client whose connection is not already closed
or closing — N registered clients, N close attempts. On the code this fails:
the guard `!socket.CLOSED && !socket.CLOSING` reads the WHATWG instance
constants (3 and 2), which are never zero, so `socket.close()` is
unreachable. Proved here: a reload broadcast performs zero close attempts on
every registry, and in particular on a registry holding one client whose
socket is in the OPEN ready-state (where the claim demands exactly one close
attempt). -/
theorem reloadClients_never_attempts_close :
    (∀ (cs : List Client) (target : Option String),
      (reloadClients cs target).closeAttempts = [])
    ∧ (reloadClients
        [{ path := "/doc.html",
           socket := { readyState := 1, sendFails := false, closeFails := false } }]
        (some "/x")).closeAttempts.length = 0 := by
  refine ⟨fun cs target => reloadLoop_closeAttempts _ cs.length cs, ?_⟩
  decide

/-- C2: for every initial registry (any combination of send or close
failures, as carried by the sockets' outcome flags) and every reload target,
`reloadClients` ends with an empty registry: every client is removed within
the same broadcast pass. -/
theorem reloadClients_empties_registry (cs : List Client) (target : Option String) :
    (reloadClients cs target).clients = []
    ∧ (reloadClients cs target).clients.length = 0 := by
  have h : (reloadClients cs target).clients = [] := by
    unfold reloadClients
    rw [reloadLoop_clients _ cs.length cs (le_refl _), List.drop_length]
  exact ⟨h, by rw [h]; rfl⟩

/-- C3: during a reload broadcast and during a log broadcast alike, every
client present in the registry at the start of the pass receives exactly one
send attempt, in reverse registration order, whatever the per-client send
outcomes are — a send failure never aborts delivery to the remaining
clients. -/
theorem broadcast_send_attempts_cover_all_clients (cs : List Client)
    (target : Option String) (r : LogRecord) (m : String) :
    (reloadClients cs target).sendAttempts.map Prod.fst = cs.reverse
    ∧ (onLogBroadcast cs r m).sendAttempts.map Prod.fst = cs.reverse := by
  constructor
  · unfold reloadClients
    rw [reloadLoop_sendAttempts _ cs.length cs (le_refl _), List.take_length]
    simp [Function.comp_def]
  · unfold onLogBroadcast
    rw [onLogLoop_sendAttempts r m cs.length cs (le_refl _), List.take_length]
    simp [Function.comp_def]

/-- C4: broadcasting a log frame leaves the registry exactly as it was — the
clients whose sends fail (any subset of the registry, via the sockets'
`sendFails` flags) are reported-and-ignored, not removed, and no close is
performed (the handler body has no close path at all). -/
theorem onLog_failures_do_not_remove_clients (cs : List Client)
    (r : LogRecord) (m : String) :
    (onLogBroadcast cs r m).clients = cs
    ∧ (onLogBroadcast cs r m).clients.length = cs.length
    ∧ (onLogBroadcast cs r m).errorsIgnored
        = cs.reverse.filter (fun c => c.socket.sendFails) := by
  have h : (onLogBroadcast cs r m).clients = cs := onLogLoop_clients r m cs.length cs
  refine ⟨h, by rw [h], ?_⟩
  unfold onLogBroadcast
  rw [onLogLoop_errorsIgnored r m cs.length cs (le_refl _), List.take_length]

/-- C5: the reverse-order traversal that may splice out the current index
for an arbitrary subset of indices visits every originally-present client
exactly once — the visit sequence is exactly the original registry in
reverse, so in particular every client's visit count equals its occurrence
count in the registry. -/
theorem forEachReverse_visits_each_client_once (cs : List Client)
    (removeIdx : Nat → Bool) :
    (forEachReverse cs removeIdx).2 = cs.reverse
    ∧ ∀ c : Client, ((forEachReverse cs removeIdx).2).count c = cs.count c := by
  have h : (forEachReverse cs removeIdx).2 = cs.reverse := by
    unfold forEachReverse
    rw [traverseReverse_visited removeIdx cs.length cs (le_refl _), List.take_length]
  exact ⟨h, fun c => by rw [h, List.count_reverse]⟩

/-- C6: `injectClient` returns the original bytes, unmodified, as a prefix,
followed by one newline byte and the UTF-8 encoding of the generated script
text, so its length is the input length plus the encoded script length plus
one; the embedding is a pure function on the input list (the source
allocates a fresh `Uint8Array` and never writes into `file`). -/
theorem injectClient_appends_script_after_input (port : Nat)
    (isPresentation : Option Bool) (file : List Nat) (inputFile : Option String)
    (format : Option Format) :
    (injectClient port isPresentation file inputFile format).length
      = file.length
        + (encodeUtf8 (devServerClientScript port inputFile format isPresentation)).length
        + 1
    ∧ (injectClient port isPresentation file inputFile format).take file.length
        = file := by
  constructor
  · simp only [injectClient]
    rw [List.length_append, encodeUtf8_newline_cons]
    simp only [List.length_cons]
    omega
  · simp only [injectClient]
    exact List.take_left file _

/-- C7: the generated client script is the core fragment (parameterized by
the loopback host and the listening port) joined by a newline with exactly
one selected fragment; the presentation (revealjs) variant is selected
exactly when the presentation-mode flag is set and the format context
identifies slideshow output, and in every other combination the viewer
variant is selected, parameterized by the input identifier defaulting to the
empty string. -/
theorem devServerClientScript_selects_variant (port : Nat)
    (inputFile : Option String) (format : Option Format)
    (isPresentation : Option Bool) :
    devServerFragments port inputFile format isPresentation
      = [Fragment.core kLocalhost port,
         if jsTruthyBool isPresentation && formatIsRevealjs format then Fragment.revealjs
         else Fragment.viewer (jsOrEmpty inputFile)]
    ∧ (Fragment.revealjs ∈ devServerFragments port inputFile format isPresentation
        ↔ isPresentation = some true
          ∧ ∃ f, format = some f ∧ isRevealjsOutput f.pandoc = true)
    ∧ (∀ s : String,
        Fragment.viewer s ∈ devServerFragments port inputFile format isPresentation
        ↔ (jsTruthyBool isPresentation && formatIsRevealjs format) = false
          ∧ s = jsOrEmpty inputFile)
    ∧ devServerClientScript port inputFile format isPresentation
        = fragmentText (Fragment.core kLocalhost port) ++ "\n"
          ++ fragmentText
            (if jsTruthyBool isPresentation && formatIsRevealjs format then
              Fragment.revealjs
            else Fragment.viewer (jsOrEmpty inputFile)) := by
  have h1 := devServerFragments_eq port inputFile format isPresentation
  refine ⟨h1, ?_, ?_, ?_⟩
  · rw [h1, ← jsTruthyBool_eq_true_iff, ← formatIsRevealjs_eq_true_iff]
    cases hA : jsTruthyBool isPresentation <;>
      cases hC : formatIsRevealjs format <;> simp [hA, hC]
  · intro s
    rw [h1]
    cases hA : jsTruthyBool isPresentation <;>
      cases hC : formatIsRevealjs format <;> simp [hA, hC]
  · simp [devServerClientScript, h1, joinWith]

/-- C8: the frame handed to `socket.send` for every client in a reload
broadcast is the string `"reload"` directly concatenated with the target
(no separator), the target defaulting to the empty string when unspecified,
in which case the frame is exactly `"reload"`. -/
theorem reload_frame_is_reload_concat_target (cs : List Client)
    (target : Option String) :
    (reloadClients cs target).sendAttempts.map Prod.snd
      = List.replicate cs.length ("reload" ++ target.getD "")
    ∧ (reloadClients cs none).sendAttempts.map Prod.snd
      = List.replicate cs.length "reload" := by
  have h : ∀ t : Option String,
      (reloadClients cs t).sendAttempts.map Prod.snd
        = List.replicate cs.length ("reload" ++ t.getD "") := by
    intro t
    unfold reloadClients
    rw [reloadLoop_sendAttempts _ cs.length cs (le_refl _), List.take_length]
    simp [List.map_map, Function.comp, List.eq_replicate_iff]
  refine ⟨h target, ?_⟩
  rw [h none]
  simp [Option.getD]

/-- C9: whenever the websocket upgrade operation throws on a request,
`connect` resolves to no response (undefined) instead of propagating the
error — the embedding returns normally — and the failure is reported only
through the diagnostic side channel (`maybeDisplaySocketError`), the
registry untouched. -/
theorem connect_upgrade_failure_resolves_undefined (cs : List Client)
    (req : Request) (e : String) (h : req.upgradeResult = Except.error e) :
    (connect cs req).response = none
    ∧ (connect cs req).displayedErrors = [e]
    ∧ (connect cs req).clients = cs := by
  simp [connect, h, maybeDisplaySocketError]

/-- C9 witness: a concrete request whose upgrade throws, on the empty
registry. -/
theorem connect_upgrade_failure_resolves_undefined_witness :
    (connect []
      { url := "/doc.html", upgradeHeader := some "websocket",
        upgradeResult := Except.error "upgrade failed" }).response = none
    ∧ (connect []
      { url := "/doc.html", upgradeHeader := some "websocket",
        upgradeResult := Except.error "upgrade failed" }).displayedErrors
        = ["upgrade failed"]
    ∧ (connect []
      { url := "/doc.html", upgradeHeader := some "websocket",
        upgradeResult := Except.error "upgrade failed" }).clients = [] :=
  connect_upgrade_failure_resolves_undefined [] _ "upgrade failed" rfl

/-- C10: `connect` keeps the original registry as an unmodified prefix, and
the registry grows by one exactly when a response is returned — so a failed
handshake (no response) leaves the registry completely unchanged, and a
client is registered if and only if `connect` returns a response. -/
theorem connect_registers_iff_response (cs : List Client) (req : Request) :
    (connect cs req).clients.take cs.length = cs
    ∧ (connect cs req).clients.length
        = cs.length + (if (connect cs req).response.isSome then 1 else 0)
    ∧ ((connect cs req).clients = cs ↔ (connect cs req).response = none) := by
  cases h : req.upgradeResult with
  | ok pr =>
    obtain ⟨socket, response⟩ := pr
    refine ⟨?_, ?_, ?_⟩
    · simp only [connect, h]
      exact List.take_left cs _
    · simp [connect, h]
    · simp only [connect, h]
      constructor
      · intro hcl
        have := congrArg List.length hcl
        simp at this
      · intro hcl
        simp at hcl
  | error e => simp [connect, h]

end Quarto
